import Mathlib

/-!
Shallow embedding of `src/utils.py` (class `InteractiveArray` and the
helper `draw_fib_tree`), together with theorems settling the claims made
by the specification about that code.

Modelling conventions
* numpy arrays of rank 0, 1 and 2 are modelled by the inductive
  `NpArray`; element values are exact rationals (`ℚ`).  Floating point
  rounding is not part of any claim; `np.std`'s square root is modelled
  by `Real.sqrt` of the exactly computed population variance.
* a raw Python argument that may or may not be a numpy object is
  modelled by `PyRaw`: a plain Python list has no `.shape` attribute,
  a numpy array or numpy scalar does.
* Python exceptions are modelled by the `PyErr` error type in an
  `Except` result.
* matplotlib `Rectangle` patches are identified by their anchor point
  `xy` (a pair of rationals), which is all `onclick` and `update_stats`
  ever inspect; the live `self.ax` axes object is modelled by a `Bool`
  recording whether axes exist.
-/

/-- Python exceptions raised by the modelled code paths. -/
inductive PyErr where
  | attributeError
  | indexError
  | valueError
  | axisError
deriving DecidableEq, Repr

/-- A numpy ndarray of rank 0, 1 or 2 with elements in `α`.
Rank-2 data is stored row-major, as numpy does. -/
inductive NpArray (α : Type) where
  | zero (x : α)
  | one (data : List α)
  | two (data : List (List α))
deriving DecidableEq, Repr

/-- The `.shape` tuple of an `NpArray` (`()`, `(n,)` or `(r, c)`).
For rank 2 numpy guarantees rectangular data, so the column count is
read off the first row. -/
def npShape {α : Type} : NpArray α → List Nat
  | .zero _ => []
  | .one xs => [xs.length]
  | .two xss => [xss.length, (xss.headD []).length]

/-- A raw Python argument handed to `InteractiveArray.__init__`:
either a plain Python list (which has no `.shape` attribute) or a
numpy array / numpy scalar (which has one). -/
inductive PyRaw (α : Type) where
  | pylist (xs : List α)
  | np (a : NpArray α)
deriving DecidableEq, Repr

/-- Reading `.shape` from the raw constructor argument: a plain list
raises `AttributeError` (modelled as `none`), numpy objects answer. -/
def rawShape {α : Type} : PyRaw α → Option (List Nat)
  | .pylist _ => none
  | .np a => some (npShape a)

/-- The `np.array(arr)` conversion performed on line 12 of the source:
a plain list of numbers becomes a rank-1 array, a numpy object is kept. -/
def toNp {α : Type} : PyRaw α → NpArray α
  | .pylist xs => .one xs
  | .np a => a

/-- The default tick labels `np.arange(d)`. -/
def arange (d : Nat) : List Int :=
  (List.range d).map (fun i => (i : Int))

/-- The state of one `InteractiveArray` instance.

`highlight_rects` holds the anchor points `rect.xy` of the matplotlib
`Rectangle` patches in `self.highlight_rects`, in list order;
`ax` records whether `self.ax` currently references an axes object;
`shape` is the `self.shape` attribute read from the *raw* argument;
`yticks` is `none` when the attribute was never set (rank < 2). -/
structure InteractiveArray (α : Type) where
  arr : NpArray α
  stats : Bool
  highlight_rects : List (ℚ × ℚ)
  ax : Bool
  shape : List Nat
  xticks : List Int
  yticks : Option (List Int)
deriving DecidableEq, Repr

/-- `InteractiveArray.__init__(arr, stats, xticks, yticks)`.

Line order follows the source: `self.arr = np.array(arr)` succeeds for
every raw argument, but `self.shape = arr.shape` (line 16) reads the
attribute from the raw argument and raises `AttributeError` on a plain
list; the default `self.xticks = np.arange(arr.shape[0])` (line 21)
raises `IndexError` when the shape tuple is empty (a 0-d array);
`self.yticks` is only assigned when `len(arr.shape) > 1`. -/
def init {α : Type} (arr : PyRaw α) (stats : Bool)
    (xticks : Option (List Int)) (yticks : Option (List Int)) :
    Except PyErr (InteractiveArray α) :=
  match rawShape arr with
  | none => .error .attributeError
  | some shape =>
    let a := toNp arr
    match xticks, shape.head? with
    | some xt, _ =>
        .ok { arr := a, stats := stats, highlight_rects := [], ax := false,
              shape := shape, xticks := xt,
              yticks :=
                if shape.length > 1 then
                  some (yticks.getD (arange (shape.getD 1 0)))
                else none }
    | none, some d0 =>
        .ok { arr := a, stats := stats, highlight_rects := [], ax := false,
              shape := shape, xticks := arange d0,
              yticks :=
                if shape.length > 1 then
                  some (yticks.getD (arange (shape.getD 1 0)))
                else none }
    | none, none => .error .indexError

/-- Python's `int()` applied to a rational: truncation toward zero. -/
def pyInt (q : ℚ) : Int :=
  if 0 ≤ q then ⌊q⌋ else ⌈q⌉

/-- numpy single-integer indexing into one axis: non-negative indices
below the length are direct, negative indices in `[-len, -1]` wrap
around, everything else raises `IndexError` (modelled as `none`). -/
def npIdx {α : Type} (xs : List α) (i : Int) : Option α :=
  if 0 ≤ i ∧ i < (xs.length : Int) then xs.get? i.toNat
  else if -(xs.length : Int) ≤ i ∧ i < 0 then xs.get? (i + xs.length).toNat
  else none

/-- numpy `arr[row, col]` on a rank-2 array: index the row axis, then
the column axis, each with `npIdx` semantics. -/
def npIdx2 {α : Type} (xss : List (List α)) (r c : Int) : Option α :=
  (npIdx xss r).bind (fun row => npIdx row c)

/-- `np.min` of a nonempty list (the `[]` case is never reached by the
source, which returns before computing statistics of an empty list). -/
def listMin : List ℚ → ℚ
  | [] => 0
  | x :: xs => xs.foldl min x

/-- `np.max` of a nonempty list. -/
def listMax : List ℚ → ℚ
  | [] => 0
  | x :: xs => xs.foldl max x

/-- Insert into a sorted list (helper for the sort used by `np.median`). -/
def insertSorted (x : ℚ) : List ℚ → List ℚ
  | [] => [x]
  | y :: ys => if x ≤ y then x :: y :: ys else y :: insertSorted x ys

/-- Sorting as performed internally by `np.median`. -/
def sortRats (xs : List ℚ) : List ℚ :=
  xs.foldr insertSorted []

/-- `np.median`: the middle element of the sorted data for odd length,
the mean of the two middle elements for even length. -/
def listMedian (xs : List ℚ) : ℚ :=
  let s := sortRats xs
  if xs.length % 2 = 1 then s.getD (xs.length / 2) 0
  else (s.getD (xs.length / 2 - 1) 0 + s.getD (xs.length / 2) 0) / 2

/-- `np.mean`: arithmetic mean. -/
def listMean (xs : List ℚ) : ℚ :=
  xs.sum / (xs.length : ℚ)

/-- Population variance, the quantity under `np.std`'s square root. -/
def listPVar (xs : List ℚ) : ℚ :=
  ((xs.map (fun x => (x - listMean xs) ^ 2)).sum) / (xs.length : ℚ)

/-- `np.std`: population standard deviation (no sample correction).
The variance is computed exactly in `ℚ`; the square root lives in `ℝ`. -/
noncomputable def listStd (xs : List ℚ) : ℝ :=
  Real.sqrt ((listPVar xs : ℚ) : ℝ)

/-- Outcome of `update_stats`: an `IndexError` escaping from array
indexing, the explicit empty marker (the source sets the title to the
empty string and returns), or the displayed statistics record. -/
inductive StatsResult where
  | indexError
  | empty
  | record (min max median mean : ℚ) (std : ℝ) (sum : ℚ)

/-- Whether an `update_stats` outcome is the `IndexError` case. -/
def StatsResult.isIndexError : StatsResult → Bool
  | .indexError => true
  | _ => false

/-- Whether an `update_stats` outcome is the empty marker. -/
def StatsResult.isEmpty : StatsResult → Bool
  | .empty => true
  | _ => false

/-- The element fetched by `update_stats` for one highlight rectangle:
`row, col = int(rect.xy[1] + 0.5), int(rect.xy[0] + 0.5)`, then
`arr[col]` on rank-1 data and `arr[row, col]` otherwise (indexing a
0-d array with two integers raises `IndexError`). -/
def rectElem (arr : NpArray ℚ) (rect : ℚ × ℚ) : Option ℚ :=
  let row := pyInt (rect.2 + 1 / 2)
  let col := pyInt (rect.1 + 1 / 2)
  match arr with
  | .one xs => npIdx xs col
  | .two xss => npIdx2 xss row col
  | .zero _ => none

/-- The loop of `update_stats` over `self.highlight_rects`, collecting
`highlighted_elements` in order; the first failing index aborts the
whole call with `IndexError`. -/
def collectElems (arr : NpArray ℚ) : List (ℚ × ℚ) → Option (List ℚ)
  | [] => some []
  | rect :: rest =>
    match rectElem arr rect with
    | none => none
    | some v => (collectElems arr rest).map (fun vs => v :: vs)

/-- `InteractiveArray.update_stats`: collect the highlighted elements;
if none are highlighted, clear the title (the empty marker); otherwise
display min, max, median, mean, population std and sum. -/
noncomputable def updateStats (x : InteractiveArray ℚ) : StatsResult :=
  match collectElems x.arr x.highlight_rects with
  | none => .indexError
  | some [] => .empty
  | some elems =>
      .record (listMin elems) (listMax elems) (listMedian elems)
        (listMean elems) (listStd elems) elems.sum

/-- `InteractiveArray.onclick(event)`: the clicked cell is
`col = int(np.floor(event.xdata + 0.5))`, `row` likewise from `ydata`;
if a rectangle anchored at `(col - 0.5, row - 0.5)` is already present
the first such rectangle is removed, otherwise a new one is appended;
either way `update_stats` runs on the new state.  The returned pair is
the mutated instance and the `update_stats` outcome (an `IndexError`
in the latter escapes after the rectangle list was already mutated). -/
noncomputable def onclick (xdata ydata : ℚ) (x : InteractiveArray ℚ) :
    InteractiveArray ℚ × StatsResult :=
  let col : Int := ⌊xdata + 1 / 2⌋
  let row : Int := ⌊ydata + 1 / 2⌋
  let xy : ℚ × ℚ := ((col : ℚ) - 1 / 2, (row : ℚ) - 1 / 2)
  if xy ∈ x.highlight_rects then
    let x1 := { x with highlight_rects := x.highlight_rects.erase xy }
    (x1, updateStats x1)
  else
    let x1 := { x with highlight_rects := x.highlight_rects ++ [xy] }
    (x1, updateStats x1)

/-- What `display` hands to matplotlib for the tick machinery:
tick positions (`set_xticks` / `set_yticks`) and tick labels
(`set_xticklabels` / `set_yticklabels`), plus whether the rank was
supported at all. -/
structure RenderInfo where
  supported : Bool
  xtickPositions : List Nat
  xtickLabels : List Int
  ytickPositions : List Nat
  ytickLabels : List Int
deriving DecidableEq, Repr

/-- `InteractiveArray.display`:  for rank 1, x ticks run over
`np.arange(len(self.arr))` with labels `self.xticks` and the y axis is
stripped; for rank 2, `set_xticks(np.arange(len(self.arr)))` uses the
number of *rows* and `set_yticks(np.arange(len(self.arr[0])))` the
number of *columns*, with labels `self.xticks` / `self.yticks`
(`self.yticks` is always assigned by the constructor on rank-2 data);
any other rank prints "Array dimensions not supported." and returns.
The state effect is the assignment `fig, self.ax = plt.subplots()` in
the supported branches; `self.highlight_rects` is never touched. -/
def display {α : Type} (x : InteractiveArray α) :
    InteractiveArray α × RenderInfo :=
  match x.arr with
  | .one xs =>
      ({ x with ax := true },
       { supported := true,
         xtickPositions := List.range xs.length,
         xtickLabels := x.xticks,
         ytickPositions := [],
         ytickLabels := [] })
  | .two xss =>
      ({ x with ax := true },
       { supported := true,
         xtickPositions := List.range xss.length,
         xtickLabels := x.xticks,
         ytickPositions := List.range (xss.headD []).length,
         ytickLabels := x.yticks.getD [] })
  | .zero _ =>
      (x, { supported := false, xtickPositions := [], xtickLabels := [],
            ytickPositions := [], ytickLabels := [] })

/-- The `other` operand of an arithmetic or comparison dunder method:
another `InteractiveArray` (the `isinstance` branch), a raw scalar, or
a raw numpy array. -/
inductive Operand (α : Type) where
  | wrapped (y : InteractiveArray α)
  | rawScalar (q : α)
  | rawArray (a : NpArray α)

/-- numpy elementwise combination of two arrays: matching shapes
combine pointwise, a 0-d operand broadcasts over the other side, and a
shape mismatch raises (modelled as `none`; numpy's more general
broadcasting between distinct ranks is not exercised by any claim). -/
def npBinop {α β γ : Type} (f : α → β → γ) :
    NpArray α → NpArray β → Option (NpArray γ)
  | .zero a, .zero b => some (.zero (f a b))
  | .zero a, .one ys => some (.one (ys.map (fun y => f a y)))
  | .zero a, .two yss => some (.two (yss.map (fun ys => ys.map (fun y => f a y))))
  | .one xs, .zero b => some (.one (xs.map (fun x => f x b)))
  | .two xss, .zero b => some (.two (xss.map (fun xs => xs.map (fun x => f x b))))
  | .one xs, .one ys =>
      if xs.length = ys.length then some (.one (List.zipWith f xs ys)) else none
  | .two xss, .two yss =>
      if xss.map List.length = yss.map List.length then
        some (.two (List.zipWith (List.zipWith f) xss yss))
      else none
  | _, _ => none

/-- numpy combination of an array with a raw Python scalar on the
right (always broadcasts). -/
def npScalar {α β γ : Type} (f : α → β → γ) (a : NpArray α) (q : β) : NpArray γ :=
  match a with
  | .zero x => .zero (f x q)
  | .one xs => .one (xs.map (fun x => f x q))
  | .two xss => .two (xss.map (fun xs => xs.map (fun x => f x q)))

/-- The shared shape of every dunder operator in the source:
`if isinstance(other, InteractiveArray): return InteractiveArray(self.arr f other.arr)`
`return InteractiveArray(self.arr f other)` — the result is wrapped by
the constructor with all defaults (so no highlights, default ticks). -/
def binopMethod {α β : Type} (f : α → α → β)
    (x : InteractiveArray α) (other : Operand α) :
    Except PyErr (InteractiveArray β) :=
  match other with
  | .wrapped y =>
      match npBinop f x.arr y.arr with
      | some a => init (.np a) false none none
      | none => .error .valueError
  | .rawArray b =>
      match npBinop f x.arr b with
      | some a => init (.np a) false none none
      | none => .error .valueError
  | .rawScalar q => init (.np (npScalar f x.arr q)) false none none

/-- Elementwise `**` on the rational carrier: for integer exponents
numpy's power agrees with exact integer power; a non-integer exponent
gives an irrational value outside the carrier (no claim evaluates the
power at particular values, only the operator plumbing). -/
def qpow (a b : ℚ) : ℚ :=
  if b.den = 1 then a ^ b.num else 0

/-- `__add__`. -/
def addMethod (x : InteractiveArray ℚ) (o : Operand ℚ) : Except PyErr (InteractiveArray ℚ) :=
  binopMethod (fun a b => a + b) x o

/-- `__sub__`. -/
def subMethod (x : InteractiveArray ℚ) (o : Operand ℚ) : Except PyErr (InteractiveArray ℚ) :=
  binopMethod (fun a b => a - b) x o

/-- `__mul__`. -/
def mulMethod (x : InteractiveArray ℚ) (o : Operand ℚ) : Except PyErr (InteractiveArray ℚ) :=
  binopMethod (fun a b => a * b) x o

/-- `__truediv__` (exact rational division; numpy's inf/nan for a zero
divisor is a float artefact outside the claims). -/
def divMethod (x : InteractiveArray ℚ) (o : Operand ℚ) : Except PyErr (InteractiveArray ℚ) :=
  binopMethod (fun a b => a / b) x o

/-- `__pow__`. -/
def powMethod (x : InteractiveArray ℚ) (o : Operand ℚ) : Except PyErr (InteractiveArray ℚ) :=
  binopMethod qpow x o

/-- `__gt__`. -/
def gtMethod (x : InteractiveArray ℚ) (o : Operand ℚ) : Except PyErr (InteractiveArray Bool) :=
  binopMethod (fun a b => decide (a > b)) x o

/-- `__lt__`. -/
def ltMethod (x : InteractiveArray ℚ) (o : Operand ℚ) : Except PyErr (InteractiveArray Bool) :=
  binopMethod (fun a b => decide (a < b)) x o

/-- `__ge__`. -/
def geMethod (x : InteractiveArray ℚ) (o : Operand ℚ) : Except PyErr (InteractiveArray Bool) :=
  binopMethod (fun a b => decide (a ≥ b)) x o

/-- `__le__`. -/
def leMethod (x : InteractiveArray ℚ) (o : Operand ℚ) : Except PyErr (InteractiveArray Bool) :=
  binopMethod (fun a b => decide (a ≤ b)) x o

/-- `__eq__`. -/
def eqMethod (x : InteractiveArray ℚ) (o : Operand ℚ) : Except PyErr (InteractiveArray Bool) :=
  binopMethod (fun a b => decide (a = b)) x o

/-- Python truthiness of an `InteractiveArray` instance: the class
defines neither a `__bool__` nor a `__len__` method, so, as for any
plain object, every instance is truthy. -/
def truthy {α : Type} (_ : InteractiveArray α) : Bool :=
  true

/-- The source defines no `__ne__` method, so Python 3's default takes
over for the operator `!=`: it calls `__eq__` and, as the result is
not `NotImplemented`, returns the *negated truthiness* of that result.
Since `__eq__` answers a (truthy) `InteractiveArray`, `!=` always
evaluates to the plain boolean `False`, never to an elementwise array. -/
def neFallback (x : InteractiveArray ℚ) (o : Operand ℚ) : Except PyErr Bool :=
  (eqMethod x o).map (fun r => ! truthy r)

/-- Sum of all elements, `np.sum(arr)` with the default `axis=None`. -/
def npTotal (a : NpArray ℚ) : ℚ :=
  match a with
  | .zero x => x
  | .one xs => xs.sum
  | .two xss => (xss.map List.sum).sum

/-- Column-wise sums of a rank-2 array (`np.sum(arr, axis=0)`). -/
def sumAxis0 (xss : List (List ℚ)) : List ℚ :=
  match xss with
  | [] => []
  | r :: rest => rest.foldl (fun acc row => List.zipWith (fun a b => a + b) acc row) r

/-- `np.sum(self.arr, axis=axis)`: `axis=None` reduces to a 0-d numpy
scalar; a valid integer axis reduces that axis away; an invalid axis
raises `AxisError` (modelled as `none`). -/
def npSum (a : NpArray ℚ) (axis : Option Nat) : Option (NpArray ℚ) :=
  match a, axis with
  | a, none => some (.zero (npTotal a))
  | .one xs, some 0 => some (.zero xs.sum)
  | .two xss, some 0 => some (.one (sumAxis0 xss))
  | .two xss, some 1 => some (.one (xss.map List.sum))
  | _, some _ => none

/-- `InteractiveArray.sum(axis)`: wrap the reduction in a fresh
`InteractiveArray()` with all-default constructor arguments. -/
def InteractiveArray.sumMethod (x : InteractiveArray ℚ) (axis : Option Nat) :
    Except PyErr (InteractiveArray ℚ) :=
  match npSum x.arr axis with
  | some a => init (.np a) false none none
  | none => .error .axisError

/-- A node identifier in the Fibonacci call graph: the source builds
the string id `fib(n)_count` from the argument `n` and the occurrence
counter `count`; the pair `(n, count)` carries exactly that data. -/
abbrev NodeId := Int × Nat

/-- The Python dict `counter`, as an association list. -/
abbrev Counter := List (Int × Nat)

/-- `counter.get(n, 0)`. -/
def counterGet (c : Counter) (n : Int) : Nat :=
  match c.find? (fun p => decide (p.1 = n)) with
  | some p => p.2
  | none => 0

/-- `counter[n] = v`. -/
def counterSet (c : Counter) (n : Int) (v : Nat) : Counter :=
  match c with
  | [] => [(n, v)]
  | p :: rest => if p.1 = n then (n, v) :: rest else p :: counterSet rest n v

/-- The graphviz `Digraph` being built: nodes carry their id and their
label (the label `fib(n)` is determined by the integer `n`), edges go
from parent id to child id, both in registration order. -/
structure FibDigraph where
  nodes : List (NodeId × Int)
  edges : List (NodeId × NodeId)
deriving DecidableEq, Repr

/-- `draw_fib_tree_internal(n, parent, graph, counter)` from the
source, with an explicit fuel argument standing for the Python call
stack: `none` means the recursion did not finish within `fuel` nested
calls.  One call reads and bumps the occurrence counter for `n`,
registers node `(n, count)` with label `n`, adds the edge from the
parent when there is one, stops if `n <= 1`, and otherwise recurses on
`n - 1` and then on `n - 2` with itself as parent. -/
def drawFibTreeInternal : Nat → Int → Option NodeId → FibDigraph → Counter →
    Option (FibDigraph × Counter)
  | 0, _, _, _, _ => none
  | fuel + 1, n, parent, graph, counter =>
    let count := counterGet counter n
    let counter1 := counterSet counter n (count + 1)
    let node : NodeId := (n, count)
    let graph1 : FibDigraph := { nodes := graph.nodes ++ [(node, n)], edges := graph.edges }
    let graph2 : FibDigraph :=
      match parent with
      | some p => { nodes := graph1.nodes, edges := graph1.edges ++ [(p, node)] }
      | none => graph1
    if n ≤ 1 then some (graph2, counter1)
    else
      match drawFibTreeInternal fuel (n - 1) (some node) graph2 counter1 with
      | none => none
      | some (g, c) => drawFibTreeInternal fuel (n - 2) (some node) g c

/-- `draw_fib_tree(n)`: run the internal builder on a fresh graph and
a fresh counter and keep the graph that is handed to `display`. -/
def drawFibTree (fuel : Nat) (n : Int) : Option FibDigraph :=
  (drawFibTreeInternal fuel n none ⟨[], []⟩ []).map (fun gc => gc.1)

/-- Number of edges leaving a given node of the call graph. -/
def outDeg (g : FibDigraph) (id : NodeId) : Nat :=
  (g.edges.filter (fun e => decide (e.1 = id))).length

/-- The node-and-edge registration performed at the top of every
`draw_fib_tree_internal` call (a reading of the straight-line prefix
of the body, used to state lemmas about it). -/
def visitNode (n : Int) (parent : Option NodeId) (g : FibDigraph) (c : Counter) :
    FibDigraph × Counter :=
  ({ nodes := g.nodes ++ [(((n, counterGet c n) : NodeId), n)],
     edges := g.edges ++ (match parent with
                          | some p => [(p, ((n, counterGet c n) : NodeId))]
                          | none => []) },
   counterSet c n (counterGet c n + 1))

lemma internal_base (fuel : Nat) (n : Int) (hn : n ≤ 1) (parent : Option NodeId)
    (g : FibDigraph) (c : Counter) :
    drawFibTreeInternal (fuel + 1) n parent g c = some (visitNode n parent g c) := by
  cases parent <;>
    simp [drawFibTreeInternal, visitNode, if_pos hn]

lemma internal_step (fuel : Nat) (n : Int) (hn : ¬ n ≤ 1) (parent : Option NodeId)
    (g : FibDigraph) (c : Counter) (g1 : FibDigraph) (c1 : Counter)
    (h : drawFibTreeInternal fuel (n - 1) (some ((n, counterGet c n) : NodeId))
          (visitNode n parent g c).1 (visitNode n parent g c).2 = some (g1, c1)) :
    drawFibTreeInternal (fuel + 1) n parent g c =
      drawFibTreeInternal fuel (n - 2) (some ((n, counterGet c n) : NodeId)) g1 c1 := by
  cases parent with
  | none =>
      simp only [visitNode, List.append_nil] at h
      simp only [drawFibTreeInternal, if_neg hn]
      rw [h]
  | some p =>
      simp only [visitNode] at h
      simp only [drawFibTreeInternal, if_neg hn]
      rw [h]

/-- Number of calls of naive doubly-recursive Fibonacci on argument
`n` (each call creates exactly one graph node). -/
def fibCalls : Nat → Nat
  | 0 => 1
  | 1 => 1
  | n + 2 => 1 + fibCalls (n + 1) + fibCalls n

lemma fibCalls_of_le_one (n : Nat) (h : n ≤ 1) : fibCalls n = 1 := by
  interval_cases n <;> rfl

lemma fibCalls_eq (n : Nat) : fibCalls n = 2 * Nat.fib (n + 1) - 1 := by
  induction n using Nat.twoStepInduction with
  | zero => rfl
  | one => rfl
  | more n ih1 ih2 =>
      have hfib : Nat.fib (n + 2 + 1) = Nat.fib (n + 1) + Nat.fib (n + 1 + 1) := by
        rw [show n + 2 + 1 = (n + 1) + 2 by omega]
        exact Nat.fib_add_two
      have h1 : 0 < Nat.fib (n + 1) := Nat.fib_pos.mpr (by omega)
      have h2 : 0 < Nat.fib (n + 1 + 1) := Nat.fib_pos.mpr (by omega)
      show 1 + fibCalls (n + 1) + fibCalls n = 2 * Nat.fib (n + 2 + 1) - 1
      rw [ih1, ih2]
      omega

lemma internal_count (n : Nat) : ∀ (fuel : Nat), n < fuel →
    ∀ (parent : Option NodeId) (g : FibDigraph) (c : Counter),
    ∃ g' c', drawFibTreeInternal fuel (n : Int) parent g c = some (g', c') ∧
      g'.nodes.length = g.nodes.length + fibCalls n := by
  induction n using Nat.strong_induction_on with
  | _ n ih =>
    intro fuel hf parent g c
    obtain ⟨f, rfl⟩ : ∃ f, fuel = f + 1 := ⟨fuel - 1, by omega⟩
    by_cases hn : n ≤ 1
    · refine ⟨(visitNode (n : Int) parent g c).1, (visitNode (n : Int) parent g c).2,
        internal_base f (n : Int) (by exact_mod_cast hn) parent g c, ?_⟩
      cases parent <;> simp [visitNode, fibCalls_of_le_one n hn]
    · have hge : 2 ≤ n := by omega
      have hc1 : ((n : Int) - 1) = ((n - 1 : Nat) : Int) := by omega
      have hc2 : ((n : Int) - 2) = ((n - 2 : Nat) : Int) := by omega
      obtain ⟨g1, c1, e1, l1⟩ := ih (n - 1) (by omega) f (by omega)
        (some ((n : Int), counterGet c (n : Int)))
        (visitNode (n : Int) parent g c).1 (visitNode (n : Int) parent g c).2
      obtain ⟨g2, c2, e2, l2⟩ := ih (n - 2) (by omega) f (by omega)
        (some ((n : Int), counterGet c (n : Int))) g1 c1
      refine ⟨g2, c2, ?_, ?_⟩
      · rw [internal_step f (n : Int) (by exact_mod_cast hn) parent g c g1 c1
          (by rw [hc1]; exact e1)]
        rw [hc2]
        exact e2
      · have lv : (visitNode (n : Int) parent g c).1.nodes.length =
            g.nodes.length + 1 := by
          cases parent <;> simp [visitNode]
        have hsum : fibCalls n = 1 + fibCalls (n - 1) + fibCalls (n - 2) := by
          obtain ⟨m, rfl⟩ : ∃ m, n = m + 2 := ⟨n - 2, by omega⟩
          have h1 : m + 2 - 1 = m + 1 := by omega
          have h2 : m + 2 - 2 = m := by omega
          rw [h1, h2]
          rfl
        omega

/-- Decidable conjunction of the spec's structural checks on the call
graph for one value of `n`: node count `2 fib(n+1) - 1`, distinct node
ids, every non-leaf with exactly two outgoing edges, every leaf
labeled 0 or 1. -/
def fibTreeCheck (n : Nat) : Bool :=
  match drawFibTree (n + 1) (n : Int) with
  | none => false
  | some g =>
      decide (g.nodes.length = 2 * Nat.fib (n + 1) - 1) &&
      decide ((g.nodes.map Prod.fst).Nodup) &&
      g.nodes.all (fun nd => (outDeg g nd.1 == 2) || (outDeg g nd.1 == 0)) &&
      g.nodes.all (fun nd => !(outDeg g nd.1 == 0) || (nd.2 == 0 || nd.2 == 1))

/-- C1: for every `n ≥ 0` the graph built by `draw_fib_tree` has
exactly `2 * fib(n+1) - 1` nodes (one per call of naive Fibonacci);
moreover for `n ∈ {0, …, 5}` the node ids are pairwise distinct, every
non-leaf node has exactly two outgoing edges and every leaf node's
value is 0 or 1. -/
theorem C1_fib_tree_node_count :
    (∀ n : Nat, ∃ g, drawFibTree (n + 1) (n : Int) = some g ∧
        g.nodes.length = 2 * Nat.fib (n + 1) - 1) ∧
    (∀ n : Fin 6, fibTreeCheck n.val = true) := by
  constructor
  · intro n
    obtain ⟨g', c', e, l⟩ := internal_count n (n + 1) (by omega) none ⟨[], []⟩ []
    refine ⟨g', ?_, ?_⟩
    · simp [drawFibTree, e]
    · simpa [fibCalls_eq] using l
  · decide

/-- C5 counterexample: the source's base case is `n <= 1`, which every
negative `n` satisfies, so the recursion for a negative argument stops
immediately; already one stack frame of fuel suffices for `n = -1`,
producing a one-node graph — the recursion is *not* non-terminating on
negative inputs. -/
theorem C5_counterexample :
    drawFibTreeInternal 1 (-1) none ⟨[], []⟩ [] =
      some (⟨[(((-1 : Int), 0), (-1 : Int))], []⟩, [((-1 : Int), 1)]) := by
  decide

/-- C5 amended: for every negative `n` the recursion terminates at once
in the `n <= 1` base case (one stack frame of fuel is enough for the
whole call), silently producing a single node labeled `fib(n)` — the
`n ≥ 0` precondition is not needed for termination. -/
theorem C5_negative_terminates (n : Int) (hn : n < 0) (fuel : Nat)
    (hf : 1 ≤ fuel) (parent : Option NodeId) (g : FibDigraph) (c : Counter) :
    drawFibTreeInternal fuel n parent g c = some (visitNode n parent g c) := by
  obtain ⟨f, rfl⟩ : ∃ f, fuel = f + 1 := ⟨fuel - 1, by omega⟩
  exact internal_base f n (by omega) parent g c

/-- Witness for C5 amended at `n = -3`, `fuel = 2`, empty graph. -/
theorem C5_negative_terminates_witness :
    (-3 : Int) < 0 ∧ (1 : Nat) ≤ 2 ∧
    drawFibTreeInternal 2 (-3) none ⟨[], []⟩ [] =
      some (⟨[(((-3 : Int), 0), (-3 : Int))], []⟩, [((-3 : Int), 1)]) :=
  ⟨by decide, by decide, C5_negative_terminates (-3) (by decide) 2 (by decide) none ⟨[], []⟩ []⟩

/-- C10: constructing the wrapper from a plain Python list raises
`AttributeError`, because line 16 of the source reads `.shape` from
the raw argument even though the buffer itself was converted with
`np.array`; this holds regardless of the other constructor arguments. -/
theorem C10_pylist_attribute_error {α : Type} (xs : List α) (stats : Bool)
    (xticks yticks : Option (List Int)) :
    init (PyRaw.pylist xs) stats xticks yticks = .error .attributeError := rfl

/-- C6 counterexample: on the wrapper of the 1-D array `[1, 2, 3]`
(exactly the wrapper the constructor builds for it, first conjunct),
`sum()` with the default `axis=None` does not succeed: `np.sum` yields
a 0-d result, and rewrapping it raises `IndexError` in the
constructor's default `np.arange(arr.shape[0])`. -/
theorem C6_counterexample :
    init (PyRaw.np (NpArray.one [(1 : ℚ), 2, 3])) false none none =
      .ok ⟨.one [1, 2, 3], false, [], false, [3], [0, 1, 2], none⟩ ∧
    InteractiveArray.sumMethod
        ⟨.one [(1 : ℚ), 2, 3], false, [], false, [3], [0, 1, 2], none⟩ none =
      .error .indexError := by
  constructor <;> rfl

/-- The wrapper built by `InteractiveArray(...)` from a numpy value of
rank at least 1 with all-default optional arguments: fresh empty
highlight list, default `np.arange` tick labels. -/
def freshWrap {α : Type} (a : NpArray α) (d0 : Nat) : InteractiveArray α :=
  { arr := a, stats := false, highlight_rects := [], ax := false,
    shape := npShape a, xticks := arange d0,
    yticks :=
      if (npShape a).length > 1 then some (arange ((npShape a).getD 1 0))
      else none }

lemma init_np_defaults {α : Type} (a : NpArray α) (d0 : Nat)
    (h : (npShape a).head? = some d0) :
    init (.np a) false none none = .ok (freshWrap a d0) := by
  simp only [init, rawShape, toNp, freshWrap]
  rw [h]
  rfl

/-- C6 amended: `sum(axis)` succeeds with the axis-wise sums exactly
when the reduction result still has rank ≥ 1, i.e. on a rank-2 array
with `axis=0` or `axis=1`; the default full reduction `axis=None`
(on any wrapped value) and `axis=0` on a rank-1 array produce a 0-d
numpy result whose rewrapping raises `IndexError` in the constructor's
default `np.arange(arr.shape[0])`. -/
theorem C6_sum_axis_cases (w : InteractiveArray ℚ) :
    (∀ xss, w.arr = .two xss →
      w.sumMethod (some 0) = .ok (freshWrap (.one (sumAxis0 xss)) (sumAxis0 xss).length) ∧
      w.sumMethod (some 1) = .ok (freshWrap (.one (xss.map List.sum)) xss.length)) ∧
    (∀ xs, w.arr = .one xs → w.sumMethod (some 0) = .error .indexError) ∧
    w.sumMethod none = .error .indexError := by
  refine ⟨?_, ?_, ?_⟩
  · intro xss harr
    constructor
    · show (match npSum w.arr (some 0) with
            | some a => init (.np a) false none none
            | none => .error .axisError) = _
      rw [harr]
      show init (.np (.one (sumAxis0 xss))) false none none = _
      rw [init_np_defaults (.one (sumAxis0 xss)) (sumAxis0 xss).length rfl]
    · show (match npSum w.arr (some 1) with
            | some a => init (.np a) false none none
            | none => .error .axisError) = _
      rw [harr]
      show init (.np (.one (xss.map List.sum))) false none none = _
      rw [init_np_defaults (.one (xss.map List.sum)) (xss.map List.sum).length rfl]
      simp [freshWrap, npShape]
  · intro xs harr
    show (match npSum w.arr (some 0) with
          | some a => init (.np a) false none none
          | none => .error .axisError) = _
    rw [harr]
    rfl
  · show (match npSum w.arr none with
          | some a => init (.np a) false none none
          | none => .error .axisError) = _
    cases h : npSum w.arr none with
    | none => simp [npSum] at h
    | some a =>
        simp only [npSum] at h
        rw [← h]
        rfl

/-- Witness for C6 amended on the 2×3 array `[[1,2,3],[4,5,6]]`
(whose column sums evaluate to `[5,7,9]`). -/
theorem C6_sum_axis_cases_witness :
    sumAxis0 [[(1 : ℚ), 2, 3], [4, 5, 6]] = [5, 7, 9] ∧
    (⟨.two [[(1 : ℚ), 2, 3], [4, 5, 6]], false, [], false, [2, 3], [0, 1],
        some [0, 1, 2]⟩ : InteractiveArray ℚ).sumMethod (some 0) =
      .ok (freshWrap (.one (sumAxis0 [[(1 : ℚ), 2, 3], [4, 5, 6]]))
             (sumAxis0 [[(1 : ℚ), 2, 3], [4, 5, 6]]).length) ∧
    (⟨.two [[(1 : ℚ), 2, 3], [4, 5, 6]], false, [], false, [2, 3], [0, 1],
        some [0, 1, 2]⟩ : InteractiveArray ℚ).sumMethod none = .error .indexError :=
  ⟨by norm_num [sumAxis0], ((C6_sum_axis_cases _).1 [[(1 : ℚ), 2, 3], [4, 5, 6]] rfl).1,
    (C6_sum_axis_cases _).2.2⟩

lemma floor_int_add_half (z : Int) : ⌊(z : ℚ) + 1 / 2⌋ = z := by
  rw [show ((z : ℚ) + 1 / 2) = (1 / 2 : ℚ) + z by ring, Int.floor_add_int]
  norm_num

/-- C7 counterexample: start from the freshly constructed wrapper of
`[1, 2]`, click cell 0 once (adding one highlight rectangle), then
call `display()` again: the highlight list is *not* cleared by the
re-render, so it is not empty after `display()`. -/
theorem C7_counterexample :
    ((display ((onclick 0 0
        (⟨.one [(1 : ℚ), 2], false, [], false, [2], [0, 1], none⟩ :
          InteractiveArray ℚ)).1)).1).highlight_rects ≠ [] := by
  have h0 : (⌊(0 : ℚ) + 1 / 2⌋ : Int) = 0 := by norm_num
  simp [onclick, display, h0]

/-- C7 amended: the highlight list is empty when the wrapper is
*constructed*, and `display()` never modifies it — a re-render
preserves whatever cells were highlighted before (the stale rectangles
keep feeding `update_stats`); only the click toggle mutates the list. -/
theorem C7_display_preserves_highlights {α : Type} :
    (∀ x : InteractiveArray α, ((display x).1).highlight_rects = x.highlight_rects) ∧
    (∀ (raw : PyRaw α) (st : Bool) (xt yt : Option (List Int)) (w : InteractiveArray α),
        init raw st xt yt = .ok w → w.highlight_rects = []) := by
  constructor
  · intro x
    rcases x with ⟨arr, stats, rects, ax, shape, xt, yt⟩
    cases arr <;> rfl
  · intro raw st xt yt w h
    cases raw with
    | pylist xs => simp [init, rawShape] at h
    | np a =>
        simp only [init, rawShape, toNp] at h
        split at h
        · cases h
          rfl
        · cases h
          rfl
        · cases h

/-- Witness for C7 amended: `display` preserves a one-element
highlight list, and the constructor of the wrapper of `[1]` starts
with an empty one. -/
theorem C7_display_preserves_highlights_witness :
    ((display (⟨.one [(1 : ℚ)], false, [(1 / 2, 1 / 2)], false, [1], [0], none⟩ :
        InteractiveArray ℚ)).1).highlight_rects = [(1 / 2, 1 / 2)] ∧
    (⟨.one [(1 : ℚ)], false, [], false, [1], [0], none⟩ :
        InteractiveArray ℚ).highlight_rects = [] :=
  ⟨C7_display_preserves_highlights.1 _,
   C7_display_preserves_highlights.2 (PyRaw.np (NpArray.one [(1 : ℚ)]))
     false none none _ rfl⟩

lemma onclick_rects (xd yd : ℚ) (x : InteractiveArray ℚ) :
    ((onclick xd yd x).1).highlight_rects =
      if ((((⌊xd + 1 / 2⌋ : Int) : ℚ) - 1 / 2, ((⌊yd + 1 / 2⌋ : Int) : ℚ) - 1 / 2) : ℚ × ℚ) ∈
          x.highlight_rects
      then x.highlight_rects.erase
        (((⌊xd + 1 / 2⌋ : Int) : ℚ) - 1 / 2, ((⌊yd + 1 / 2⌋ : Int) : ℚ) - 1 / 2)
      else x.highlight_rects ++
        [(((⌊xd + 1 / 2⌋ : Int) : ℚ) - 1 / 2, ((⌊yd + 1 / 2⌋ : Int) : ℚ) - 1 / 2)] := by
  simp only [onclick]
  by_cases h : ((((⌊xd + 1 / 2⌋ : Int) : ℚ) - 1 / 2,
      ((⌊yd + 1 / 2⌋ : Int) : ℚ) - 1 / 2) : ℚ × ℚ) ∈ x.highlight_rects
  · simp only [if_pos h]
  · simp only [if_neg h]

lemma notMemEraseSelf {α : Type} [BEq α] [LawfulBEq α] (a : α) (l : List α)
    (h : l.Nodup) : a ∉ l.erase a := by
  induction l with
  | nil => simp
  | cons b t ih =>
      rcases List.nodup_cons.mp h with ⟨hb, ht⟩
      by_cases hba : b = a
      · subst hba
        rw [List.erase_cons_head]
        exact hb
      · rw [List.erase_cons_tail (by simpa using hba)]
        intro hc
        rcases List.mem_cons.mp hc with h1 | h2
        · exact hba h1.symm
        · exact ih ht h2

lemma permConsEraseSelf {α : Type} [BEq α] [LawfulBEq α] (a : α) (l : List α)
    (h : a ∈ l) : l.Perm (a :: l.erase a) := by
  induction l with
  | nil => cases h
  | cons b t ih =>
      by_cases hba : b = a
      · subst hba
        rw [List.erase_cons_head]
      · rw [List.erase_cons_tail (by simpa using hba)]
        have hmem : a ∈ t := by
          rcases List.mem_cons.mp h with h1 | h2
          · exact absurd h1.symm hba
          · exact h2
        exact ((ih hmem).cons b).trans (List.Perm.swap a b (t.erase a))

lemma toggle_twice_perm (xy : ℚ × ℚ) (l : List (ℚ × ℚ)) (hnd : l.Nodup) :
    (if xy ∈ (if xy ∈ l then l.erase xy else l ++ [xy])
     then (if xy ∈ l then l.erase xy else l ++ [xy]).erase xy
     else (if xy ∈ l then l.erase xy else l ++ [xy]) ++ [xy]).Perm l := by
  by_cases h : xy ∈ l
  · rw [if_pos h, if_neg (notMemEraseSelf xy l hnd)]
    exact (List.perm_append_singleton xy (l.erase xy)).trans
      (permConsEraseSelf xy l h).symm
  · rw [if_neg h, if_pos (by simp), List.erase_append_right _ h]
    simp

/-- C2: two click events that map to the same cell toggle the
highlight set back to its prior state: whenever the stored rectangle
list has no duplicates (true of every reachable state), the list after
the two clicks holds exactly the elements it held before. -/
theorem C2_toggle_involution (x1d y1d x2d y2d : ℚ) (x : InteractiveArray ℚ)
    (hx : ⌊x1d + 1 / 2⌋ = ⌊x2d + 1 / 2⌋) (hy : ⌊y1d + 1 / 2⌋ = ⌊y2d + 1 / 2⌋)
    (hnd : x.highlight_rects.Nodup) :
    ((onclick x2d y2d ((onclick x1d y1d x).1)).1).highlight_rects.Perm
      x.highlight_rects := by
  rw [onclick_rects, onclick_rects, ← hx, ← hy]
  exact toggle_twice_perm _ _ hnd

/-- Witness for C2: double-click on cell (0, 0) of a wrapper with one
already-highlighted cell returns the highlight list to that state. -/
theorem C2_toggle_involution_witness :
    ((⟨.one [(1 : ℚ), 2], false, [(1 / 2, -(1 / 2))], false, [2], [0, 1], none⟩ :
        InteractiveArray ℚ)).highlight_rects.Nodup ∧
    ((onclick 0 0 ((onclick 0 0
        (⟨.one [(1 : ℚ), 2], false, [(1 / 2, -(1 / 2))], false, [2], [0, 1], none⟩ :
          InteractiveArray ℚ)).1)).1).highlight_rects.Perm
      [(1 / 2, -(1 / 2))] :=
  ⟨List.nodup_singleton _,
   C2_toggle_involution 0 0 0 0 _ rfl rfl (List.nodup_singleton _)⟩

lemma listMin_single (v : ℚ) : listMin [v] = v := rfl

lemma listMax_single (v : ℚ) : listMax [v] = v := rfl

lemma listMedian_single (v : ℚ) : listMedian [v] = v := by
  simp [listMedian, sortRats, insertSorted]

lemma listMean_single (v : ℚ) : listMean [v] = v := by
  simp [listMean]

lemma listPVar_single (v : ℚ) : listPVar [v] = 0 := by
  simp [listPVar, listMean]

lemma listStd_single (v : ℚ) : listStd [v] = 0 := by
  simp [listStd, listPVar_single]

lemma listSum_single (v : ℚ) : List.sum [v] = v := by
  simp

/-- C3: `update_stats` over an empty highlight list yields the empty
marker (clearing the caption and returning before any statistics are
computed); over exactly one highlight rectangle whose recovered
coordinate is in bounds (fetching value `v`), it displays
`min = max = median = mean = v` and `std = 0` (and sum `v`). -/
theorem C3_single_and_empty_stats (x : InteractiveArray ℚ) :
    (x.highlight_rects = [] → updateStats x = .empty) ∧
    (∀ (rect : ℚ × ℚ) (v : ℚ), x.highlight_rects = [rect] →
        rectElem x.arr rect = some v →
        updateStats x = .record v v v v 0 v) := by
  constructor
  · intro h
    simp [updateStats, h, collectElems]
  · intro rect v h hv
    simp [updateStats, h, collectElems, hv, listMin_single, listMax_single,
      listMedian_single, listMean_single, listStd_single, listSum_single]

/-- Witness for C3 on the rank-1 array `[5]` with the single cell 0
highlighted (rectangle anchored at `(-1/2, -1/2)`), plus the empty
case on the same array with nothing highlighted. -/
theorem C3_single_and_empty_stats_witness :
    rectElem (.one [(5 : ℚ)]) (-(1 / 2), -(1 / 2)) = some 5 ∧
    updateStats (⟨.one [(5 : ℚ)], false, [(-(1 / 2), -(1 / 2))], false, [1], [0],
        none⟩ : InteractiveArray ℚ) = .record 5 5 5 5 0 5 ∧
    updateStats (⟨.one [(5 : ℚ)], false, [], false, [1], [0],
        none⟩ : InteractiveArray ℚ) = .empty :=
  ⟨by norm_num [rectElem, pyInt, npIdx],
   (C3_single_and_empty_stats _).2 (-(1 / 2), -(1 / 2)) 5 rfl
     (by norm_num [rectElem, pyInt, npIdx]),
   (C3_single_and_empty_stats _).1 rfl⟩

lemma pyInt_intCast (z : Int) : pyInt (z : ℚ) = z := by
  unfold pyInt
  split
  · exact Int.floor_intCast z
  · exact Int.ceil_intCast z

lemma rectElem_one (xs : List ℚ) (col row : Int) :
    rectElem (.one xs) ((col : ℚ) - 1 / 2, (row : ℚ) - 1 / 2) = npIdx xs col := by
  simp only [rectElem]
  rw [show ((col : ℚ) - 1 / 2 + 1 / 2) = (col : ℚ) by ring, pyInt_intCast]

lemma updateStats_single (x : InteractiveArray ℚ) (rect : ℚ × ℚ) (v : ℚ)
    (h : x.highlight_rects = [rect]) (hv : rectElem x.arr rect = some v) :
    updateStats x = .record v v v v 0 v := by
  simp [updateStats, h, collectElems, hv, listMin_single, listMax_single,
    listMedian_single, listMean_single, listStd_single, listSum_single]

lemma updateStats_indexError (x : InteractiveArray ℚ) (rect : ℚ × ℚ)
    (h : x.highlight_rects = [rect]) (hv : rectElem x.arr rect = none) :
    updateStats x = .indexError := by
  simp [updateStats, h, collectElems, hv]

lemma npIdx_oob {α : Type} (xs : List α) (i : Int)
    (h : (xs.length : Int) ≤ i ∨ i < -(xs.length : Int)) : npIdx xs i = none := by
  unfold npIdx
  rw [if_neg (by omega), if_neg (by omega)]

lemma npIdx_neg (xs : List ℚ) (i : Int) (h1 : -(xs.length : Int) ≤ i)
    (h2 : i < 0) : ∃ v, npIdx xs i = some v := by
  unfold npIdx
  rw [if_neg (by omega), if_pos ⟨h1, h2⟩]
  cases hv : xs.get? (i + xs.length).toNat with
  | none =>
      rw [List.get?_eq_none] at hv
      omega
  | some v => exact ⟨v, rfl⟩

lemma onclick_on_empty (xd yd : ℚ) (x : InteractiveArray ℚ)
    (hrects : x.highlight_rects = []) :
    onclick xd yd x =
      ({ x with highlight_rects :=
          [(((⌊xd + 1 / 2⌋ : Int) : ℚ) - 1 / 2, ((⌊yd + 1 / 2⌋ : Int) : ℚ) - 1 / 2)] },
       updateStats { x with highlight_rects :=
          [(((⌊xd + 1 / 2⌋ : Int) : ℚ) - 1 / 2, ((⌊yd + 1 / 2⌋ : Int) : ℚ) - 1 / 2)] }) := by
  simp [onclick, hrects]

/-- C8 amended: clicking a cell of a rank-1 wrapper at an out-of-range
column raises `IndexError` only when the column is `≥ length` or
`< -length` — and even then the rectangle has already been appended
when the error escapes; a negative column in `[-length, -1]` is
silently accepted by numpy's wraparound indexing, and the statistics
are computed from the wrapped-around element with no error at all. -/
theorem C8_out_of_range_click (xs : List ℚ) (col : Int) (x : InteractiveArray ℚ)
    (harr : x.arr = .one xs) (hrects : x.highlight_rects = []) :
    (((xs.length : Int) ≤ col ∨ col < -(xs.length : Int)) →
        (onclick (col : ℚ) 0 x).2 = .indexError ∧
        ((onclick (col : ℚ) 0 x).1).highlight_rects =
          [((col : ℚ) - 1 / 2, ((0 : Int) : ℚ) - 1 / 2)]) ∧
    (-(xs.length : Int) ≤ col → col < 0 →
        ∃ v, npIdx xs col = some v ∧
          (onclick (col : ℚ) 0 x).2 = .record v v v v 0 v) := by
  have h0 : (⌊(0 : ℚ) + 1 / 2⌋ : Int) = 0 := by norm_num
  have hc : (⌊(col : ℚ) + 1 / 2⌋ : Int) = col := floor_int_add_half col
  rw [onclick_on_empty (col : ℚ) 0 x hrects, hc, h0]
  constructor
  · intro hoob
    constructor
    · exact updateStats_indexError _ _ rfl
        (by rw [harr, rectElem_one]; exact npIdx_oob xs col hoob)
    · rfl
  · intro h1 h2
    obtain ⟨v, hv⟩ := npIdx_neg xs col h1 h2
    exact ⟨v, hv, updateStats_single _ _ v rfl (by rw [harr, rectElem_one, hv])⟩

/-- C8 counterexample: clicking the out-of-range cell `col = -1` on the
wrapper of `[3, 7]` raises no `IndexError` and does not hit the empty
marker either — numpy wraparound indexing silently feeds the last
element into the statistics. -/
theorem C8_counterexample :
    (((onclick (-1) 0 (⟨.one [(3 : ℚ), 7], false, [], false, [2], [0, 1],
        none⟩ : InteractiveArray ℚ)).2).isIndexError = false) ∧
    (((onclick (-1) 0 (⟨.one [(3 : ℚ), 7], false, [], false, [2], [0, 1],
        none⟩ : InteractiveArray ℚ)).2).isEmpty = false) := by
  have hm1 : (⌊(-1 : ℚ) + 1 / 2⌋ : Int) = -1 := by
    have h := floor_int_add_half (-1)
    simpa using h
  have h0 : (⌊(0 : ℚ) + 1 / 2⌋ : Int) = 0 := by norm_num
  have hv : npIdx [(3 : ℚ), 7] (-1) = some 7 := by
    norm_num [npIdx]
  rw [onclick_on_empty (-1) 0 _ rfl, hm1, h0]
  rw [updateStats_single _ _ 7 rfl
    (by rw [show (((-1 : Int) : ℚ) - 1 / 2, ((0 : Int) : ℚ) - 1 / 2) =
          (((-1 : Int) : ℚ) - 1 / 2, ((0 : Int) : ℚ) - 1 / 2) from rfl,
        rectElem_one]; exact hv)]
  exact ⟨rfl, rfl⟩

/-- Witness for C8 amended on `[3, 7]`: column 2 raises `IndexError`
(with the rectangle still appended), column `-1` silently yields the
one-point statistics of the wrapped-around element `7`. -/
theorem C8_out_of_range_click_witness :
    ((onclick ((2 : Int) : ℚ) 0 (⟨.one [(3 : ℚ), 7], false, [], false, [2], [0, 1],
        none⟩ : InteractiveArray ℚ)).2 = .indexError) ∧
    (∃ v, npIdx [(3 : ℚ), 7] (-1) = some v ∧
      (onclick (((-1 : Int) : ℚ)) 0 (⟨.one [(3 : ℚ), 7], false, [], false, [2], [0, 1],
          none⟩ : InteractiveArray ℚ)).2 = .record v v v v 0 v) :=
  ⟨((C8_out_of_range_click [(3 : ℚ), 7] 2 _ rfl rfl).1 (by norm_num)).1,
   (C8_out_of_range_click [(3 : ℚ), 7] (-1) _ rfl rfl).2 (by norm_num) (by norm_num)⟩

/-- Two numpy arrays have matching (elementwise-combinable without
broadcasting) shapes: equal lengths for rank 1, equal row-length
profiles for rank 2. -/
def matchShape {α β : Type} : NpArray α → NpArray β → Prop
  | .one xs, .one ys => xs.length = ys.length
  | .two xss, .two yss => xss.map List.length = yss.map List.length
  | _, _ => False

lemma npBinop_matched {α β γ : Type} (f : α → β → γ) (A : NpArray α)
    (B : NpArray β) (h : matchShape A B) :
    ∃ c, npBinop f A B = some c ∧ (npShape c).head? = (npShape A).head? := by
  cases A with
  | zero a => cases B <;> simp [matchShape] at h
  | one xs =>
      cases B with
      | zero b => simp [matchShape] at h
      | two yss => simp [matchShape] at h
      | one ys =>
          simp only [matchShape] at h
          refine ⟨.one (List.zipWith f xs ys), ?_, ?_⟩
          · simp [npBinop, h]
          · simp [npShape, List.length_zipWith, h]
  | two xss =>
      cases B with
      | zero b => simp [matchShape] at h
      | one ys => simp [matchShape] at h
      | two yss =>
          simp only [matchShape] at h
          refine ⟨.two (List.zipWith (List.zipWith f) xss yss), ?_, ?_⟩
          · simp [npBinop, h]
          · have hlen : yss.length = xss.length := by
              have hc := congrArg List.length h
              simpa using hc.symm
            simp [npShape, List.length_zipWith, hlen]

/-- What the spec asserts of one elementwise dunder method with
elementwise function `f`: on a wrapped operand whose underlying
combination succeeds, on a raw array likewise, and on a raw scalar,
the method returns exactly the fresh default-constructed wrapper of
the direct elementwise result — empty highlight list, fresh default
`np.arange` tick labels, nothing inherited from either operand. -/
def OpSpec {β : Type}
    (method : InteractiveArray ℚ → Operand ℚ → Except PyErr (InteractiveArray β))
    (f : ℚ → ℚ → β) : Prop :=
  ∀ (x : InteractiveArray ℚ),
    (∀ (y : InteractiveArray ℚ) (a : NpArray β) (d0 : Nat),
        npBinop f x.arr y.arr = some a → (npShape a).head? = some d0 →
        method x (.wrapped y) = .ok (freshWrap a d0)) ∧
    (∀ (b : NpArray ℚ) (a : NpArray β) (d0 : Nat),
        npBinop f x.arr b = some a → (npShape a).head? = some d0 →
        method x (.rawArray b) = .ok (freshWrap a d0)) ∧
    (∀ (q : ℚ) (d0 : Nat), (npShape (npScalar f x.arr q)).head? = some d0 →
        method x (.rawScalar q) = .ok (freshWrap (npScalar f x.arr q) d0))

lemma opSpec_binop {β : Type} (f : ℚ → ℚ → β) : OpSpec (binopMethod f) f := by
  intro x
  refine ⟨?_, ?_, ?_⟩
  · intro y a d0 hb hd
    simp only [binopMethod]
    rw [hb]
    exact init_np_defaults a d0 hd
  · intro b a d0 hb hd
    simp only [binopMethod]
    rw [hb]
    exact init_np_defaults a d0 hd
  · intro q d0 hd
    simp only [binopMethod]
    exact init_np_defaults _ d0 hd

/-- C4 amended: the five arithmetic operators and the five comparison
operators the class defines (`>`, `<`, `>=`, `<=`, `==`) each accept a
wrapped array, raw array or raw scalar operand and rewrap the direct
elementwise result with no highlight state and no inherited labels;
`!=` is *not* among them: the class has no `__ne__`, and the Python 3
fallback negates the truthiness of the `__eq__` result, so `a != b`
evaluates to the plain boolean `False` (never an elementwise array). -/
theorem C4_elementwise_operators :
    OpSpec addMethod (fun a b => a + b) ∧
    OpSpec subMethod (fun a b => a - b) ∧
    OpSpec mulMethod (fun a b => a * b) ∧
    OpSpec divMethod (fun a b => a / b) ∧
    OpSpec powMethod qpow ∧
    OpSpec gtMethod (fun a b => decide (a > b)) ∧
    OpSpec ltMethod (fun a b => decide (a < b)) ∧
    OpSpec geMethod (fun a b => decide (a ≥ b)) ∧
    OpSpec leMethod (fun a b => decide (a ≤ b)) ∧
    OpSpec eqMethod (fun a b => decide (a = b)) ∧
    (∀ (x : InteractiveArray ℚ) (o : Operand ℚ),
        neFallback x o = (eqMethod x o).map (fun _ => false)) :=
  ⟨opSpec_binop _, opSpec_binop _, opSpec_binop _, opSpec_binop _,
   opSpec_binop _, opSpec_binop _, opSpec_binop _, opSpec_binop _,
   opSpec_binop _, opSpec_binop _,
   fun x o => by simp [neFallback, truthy]⟩

/-- Witness for C4 amended: `wrap([1,2]) + wrap([4,5])` rewraps the
elementwise sum `[5,7]` with fresh defaults, and `!=` on the same pair
is the constant-`False` fallback. -/
theorem C4_elementwise_operators_witness :
    addMethod (⟨.one [(1 : ℚ), 2], false, [], false, [2], [0, 1], none⟩ :
        InteractiveArray ℚ)
      (.wrapped ⟨.one [(4 : ℚ), 5], false, [], false, [2], [0, 1], none⟩) =
      .ok (freshWrap (.one [(5 : ℚ), 7]) 2) ∧
    neFallback (⟨.one [(1 : ℚ), 2], false, [], false, [2], [0, 1], none⟩ :
        InteractiveArray ℚ)
      (.wrapped ⟨.one [(4 : ℚ), 5], false, [], false, [2], [0, 1], none⟩) =
      (eqMethod (⟨.one [(1 : ℚ), 2], false, [], false, [2], [0, 1], none⟩ :
          InteractiveArray ℚ)
        (.wrapped ⟨.one [(4 : ℚ), 5], false, [], false, [2], [0, 1], none⟩)).map
        (fun _ => false) :=
  ⟨(C4_elementwise_operators.1 _).1
      ⟨.one [(4 : ℚ), 5], false, [], false, [2], [0, 1], none⟩
      (.one [(5 : ℚ), 7]) 2 (by norm_num [npBinop]) rfl,
   C4_elementwise_operators.2.2.2.2.2.2.2.2.2.2 _ _⟩

/-- C4 counterexample: on the buffers `[1,2]` and `[1,3]`, whose direct
elementwise inequality is `[false, true]`, the operator `!=` evaluates
to the plain boolean `False` — not to a wrapped array of elementwise
results — because the class defines no `__ne__` and every
`InteractiveArray` is truthy. -/
theorem C4_counterexample :
    neFallback (⟨.one [(1 : ℚ), 2], false, [], false, [2], [0, 1], none⟩ :
        InteractiveArray ℚ)
      (.wrapped ⟨.one [(1 : ℚ), 3], false, [], false, [2], [0, 1], none⟩) =
      .ok false ∧
    List.zipWith (fun a b => decide (¬ a = b)) [(1 : ℚ), 2] [(1 : ℚ), 3] =
      [false, true] := by
  constructor
  · rfl
  · norm_num

/-- C9: on the non-square 2×3 array `[[1,2,3],[4,5,6]]` (shape `[2,3]`,
first conjunct shows the exact wrapper the constructor builds),
`display` hands matplotlib 2 x-tick positions and 2 x-tick labels —
`np.arange(len(arr))`, the number of *rows* — for the 3-column x axis,
and 3 y-tick positions/labels — `np.arange(len(arr[0]))`, the number
of *columns* — for the 2-row y axis: the label sequences are applied
to the wrong axes whenever the array is not square. -/
theorem C9_tick_axes_swapped :
    init (PyRaw.np (NpArray.two [[(1 : ℚ), 2, 3], [4, 5, 6]])) false none none =
      .ok ⟨.two [[1, 2, 3], [4, 5, 6]], false, [], false, [2, 3], [0, 1],
        some [0, 1, 2]⟩ ∧
    ((display (⟨.two [[(1 : ℚ), 2, 3], [4, 5, 6]], false, [], false, [2, 3],
        [0, 1], some [0, 1, 2]⟩ : InteractiveArray ℚ)).2).xtickPositions.length = 2 ∧
    ((display (⟨.two [[(1 : ℚ), 2, 3], [4, 5, 6]], false, [], false, [2, 3],
        [0, 1], some [0, 1, 2]⟩ : InteractiveArray ℚ)).2).xtickLabels.length = 2 ∧
    ((display (⟨.two [[(1 : ℚ), 2, 3], [4, 5, 6]], false, [], false, [2, 3],
        [0, 1], some [0, 1, 2]⟩ : InteractiveArray ℚ)).2).ytickPositions.length = 3 ∧
    ((display (⟨.two [[(1 : ℚ), 2, 3], [4, 5, 6]], false, [], false, [2, 3],
        [0, 1], some [0, 1, 2]⟩ : InteractiveArray ℚ)).2).ytickLabels.length = 3 ∧
    npShape (NpArray.two [[(1 : ℚ), 2, 3], [4, 5, 6]]) = [2, 3] ∧
    (2 : Nat) ≠ 3 :=
  ⟨rfl, rfl, rfl, rfl, rfl, rfl, by decide⟩

/-- The no-duplicates hypothesis of the toggle-involution theorem is
an invariant of every reachable state: the constructor starts with an
empty list and each click either erases an element or appends one that
was not present. -/
lemma onclick_preserves_nodup (xd yd : ℚ) (x : InteractiveArray ℚ)
    (h : x.highlight_rects.Nodup) :
    ((onclick xd yd x).1).highlight_rects.Nodup := by
  rw [onclick_rects]
  split
  · exact h.erase _
  · rename_i hnm
    simp only [List.nodup_append, List.nodup_singleton, List.disjoint_singleton]
    exact ⟨h, trivial, hnm⟩
